import Mathlib

/-!
# Shallow embedding of the natsv2.go sketch (src/main.go)

The repository is a thin wrapper over an external NATS client library.
We embed its data model and operations:

* Go `error` values are modelled by `Option GoErr` (with `none` = Go `nil`)
  or, for functions in the `(value, error)` return style where the value is
  `nil` exactly when the error is set, by `Except GoErr _`.
* Go `[]byte` is `Bytes := List Nat`, each element a byte (`< 256` where it
  matters).
* The external NATS client (`*nats.Conn`) is opaque: a connection stores an
  identifier (`Option Nat`, with `none` = the `nil` pointer), and external
  calls such as the publish of the client are parameters of the wrapper
  functions, so theorems quantify over the behaviour of the external library.
* Go closures mutating an options struct and returning `error`
  (`func(*SubOptions) error`) become state-passing functions
  `SubOptions → Except GoErr SubOptions`; an error discards the state,
  matching Go where the erroring call path discards the local struct.
-/

abbrev Bytes := List Nat

/-- A Go `error` value (modelled by its message); `Option GoErr` with
`none` standing for the `nil` error. -/
abbrev GoErr := String

/-- UTF-8 encoding of a single Unicode code point, as the Go `[]byte(string)` 
produces for each rune. -/
def utf8Bytes (c : Nat) : List Nat :=
  if c < 0x80 then [c]
  else if c < 0x800 then [0xC0 + c / 64, 0x80 + c % 64]
  else if c < 0x10000 then
    [0xE0 + c / 4096, 0x80 + (c / 64) % 64, 0x80 + c % 64]
  else
    [0xF0 + c / 262144, 0x80 + (c / 4096) % 64, 0x80 + (c / 64) % 64,
     0x80 + c % 64]

/-- Go `[]byte(s)`: the UTF-8 bytes of the string. -/
def strBytes (s : String) : Bytes :=
  (s.data.map (fun ch => utf8Bytes ch.toNat)).flatten

/-- Go `nats.MsgHandler` is a nil-able function value from the external
library; we model it by an opaque identity (`none` = the `nil` handler). -/
abbrev MsgHandler := Option Nat

/-- Go `context.Context` is a nil-able interface value; modelled by an opaque
identity. -/
abbrev GoContext := Option Nat

/-- Go `type SubOptions struct { Queue string; Handler nats.MsgHandler }`.
The Go zero value has `Queue = ""` and `Handler = nil`. -/
structure SubOptions where
  Queue : String := ""
  Handler : MsgHandler := none
deriving Repr, DecidableEq

/-- Go `type ReqOptions struct { Timeout time.Duration; Context context.Context }`.
`time.Duration` is an `int64` nanosecond count, modelled as `Int` (it is only
stored, never computed with). -/
structure ReqOptions where
  Timeout : Int := 0
  Context : GoContext := none
deriving Repr, DecidableEq

/-- Go `type SubOption func(*SubOptions) error`, in state-passing style. -/
abbrev SubOption := SubOptions → Except GoErr SubOptions

/-- Go `type ReqOption func(*ReqOptions) error`, in state-passing style. -/
abbrev ReqOption := ReqOptions → Except GoErr ReqOptions

/-- Go `func Queue(name string) SubOption`: sets `o.Queue = name`, returns nil. -/
def Queue (name : String) : SubOption :=
  fun o => .ok { o with Queue := name }

/-- Go `func Handler(mcb nats.MsgHandler) SubOption`: sets `o.Handler = mcb`,
returns nil. -/
def Handler (mcb : MsgHandler) : SubOption :=
  fun o => .ok { o with Handler := mcb }

/-- Go `func Timeout(timeout time.Duration) ReqOption`: sets
`o.Timeout = timeout`, returns nil. -/
def Timeout (timeout : Int) : ReqOption :=
  fun o => .ok { o with Timeout := timeout }

/-- Go `func Ctx(ctx context.Context) ReqOption`: sets `o.Context = ctx`,
returns nil. -/
def Ctx (ctx : GoContext) : ReqOption :=
  fun o => .ok { o with Context := ctx }

/-- The option-application loop shared by `Request` and `Subscribe`:
`for _, opt := range opts { if err := opt(o); err != nil { return nil, err } }`.
Applies the options in argument order, stopping at the first error. -/
def applyOpts {σ : Type} (opts : List (σ → Except GoErr σ)) (o : σ) :
    Except GoErr σ :=
  match opts with
  | [] => .ok o
  | opt :: rest =>
    match opt o with
    | .error e => .error e
    | .ok o2 => applyOpts rest o2

/-- Go `type conn struct { nc *nats.Conn }`: the wrapper connection, holding a
possibly-nil reference to the external client. -/
structure conn where
  nc : Option Nat
deriving Repr, DecidableEq

/-- The published `interface{}` payload, by the cases `conn.Publish`
distinguishes: a byte slice, a string, or any other value (which Go renders
via `fmt.Sprintf("%+v", v)`; the `other` constructor carries that rendered
representation, since formatting of arbitrary Go values happens in the
external `fmt` package). -/
inductive PubMsg where
  | bytes (b : Bytes)
  | str (s : String)
  | other (fmtRepr : String)
deriving Repr, DecidableEq

/-- The payload coercion performed by the type switch in `conn.Publish`. -/
def coerceMsg : PubMsg → Bytes
  | .bytes b => b
  | .str s => strBytes s
  | .other r => strBytes r

namespace conn

/-- Go `func (c *conn) Publish(subject string, msg interface{}) error`:
coerces the payload to bytes and forwards to the publish of the external client
(`c.nc.Publish(subject, data)`). The parameter `pub` is the publish of the external library,
receiving the stored (possibly nil) client reference. Returns the updated
connection state (unchanged) and the Go error. -/
def Publish (pub : Option Nat → String → Bytes → Option GoErr)
    (c : conn) (subject : String) (msg : PubMsg) : conn × Option GoErr :=
  (c, pub c.nc subject (coerceMsg msg))

/-- Go `func (c *conn) Subscribe(subject string, opts ...SubOption) (Subscription, error)`:
applies the options to a fresh zero `SubOptions`; on option error returns
`(nil, err)`, otherwise (a stub) prints the options and returns `(nil, nil)`.
The `Subscription` result is modelled as `Option Unit` (always `none`). -/
def Subscribe (c : conn) (subject : String) (opts : List SubOption) :
    conn × (Option Unit × Option GoErr) :=
  match applyOpts opts {} with
  | .error e => (c, (none, some e))
  | .ok _ => (c, (none, none))

/-- Go `func (c *conn) Request(subject string, msg interface{}, opts ...ReqOption) (*nats.Msg, error)`:
applies the options to a fresh zero `ReqOptions`; on option error returns
`(nil, err)`, otherwise (a stub) prints the options and returns `(nil, nil)`.
The `*nats.Msg` result is modelled as `Option Unit` (always `none`). -/
def Request (c : conn) (subject : String) (msg : PubMsg)
    (opts : List ReqOption) : conn × (Option Unit × Option GoErr) :=
  match applyOpts opts {} with
  | .error e => (c, (none, some e))
  | .ok _ => (c, (none, none))

/-- Go `func (c *conn) Handle(subject string, handler HTTPHandlerFunc) error`:
a stub that ignores both arguments and returns nil. The handler is modelled
by an opaque identity. -/
def Handle (c : conn) (subject : String) (handler : Nat) :
    conn × Option GoErr :=
  (c, none)

/-- Go `func (c *conn) Close()`: if `c.nc != nil`, calls `c.nc.Close()` and sets
`c.nc = nil`; otherwise does nothing. The `Bool` records whether the external
close of the external client was invoked. -/
def Close (c : conn) : conn × Bool :=
  match c.nc with
  | some _ => (⟨none⟩, true)
  | none => (c, false)

end conn

/-- Go `func Connect(url string, opts ...nats.Option) (Connection, error)`:
forwards to the external `nats.Connect`; on error returns `(nil, err)`,
otherwise wraps the client in a `conn`. The outcome of the external connect is
the parameter `connectResult`. -/
def Connect (connectResult : Except GoErr Nat) : Except GoErr conn :=
  match connectResult with
  | .error e => .error e
  | .ok nc => .ok ⟨some nc⟩

/-- The outcome of the connect step of `main`: `log.Fatalf` exits the process
(carrying the logged message, with no connection to continue with), or the
program proceeds with the connection. -/
inductive MainOutcome where
  | fatalExit (msg : String)
  | proceed (c : conn)
deriving Repr, DecidableEq

/-- The connect step of `main`:
`nc, err := Connect("demo.nats.io"); if err != nil { log.Fatalf("Could not connect: %v\n", err) }`.
On error the process exits via `log.Fatalf`, so no further operation runs. -/
def mainConnectStep (connectResult : Except GoErr Nat) : MainOutcome :=
  match Connect connectResult with
  | .error e => .fatalExit ("Could not connect: " ++ e ++ "\n")
  | .ok c => .proceed c

/-- Go `func JSON(v interface{}) []byte`: `b, _ := json.Marshal(v); return b`.
The external `json.Marshal` is the parameter `marshal` (returning `nil`
bytes together with the error on failure, as the Go library does); the
helper discards the error, returning `[]`/nil bytes in that case. -/
def JSON {V : Type} (marshal : V → Except GoErr Bytes) (v : V) : Bytes :=
  match marshal v with
  | .ok b => b
  | .error _ => []

/-- The state of an external `gzip.Writer` writing into a `bytes.Buffer`:
the bytes written so far. -/
structure GzipWriter where
  written : Bytes
deriving Repr, DecidableEq

/-- Go `gzip.NewWriter(&buf)`: a fresh writer with nothing written. -/
def gzipNewWriter : GzipWriter := ⟨[]⟩

/-- Go `zw.Write(in)`: appends the bytes to the stream being compressed. -/
def gzipWrite (zw : GzipWriter) (p : Bytes) : GzipWriter :=
  ⟨zw.written ++ p⟩

/-- The buffer contents after `zw.Close()`: the gzip-compressed form of
everything written, produced by the compressor of the external library
(parameter `compress`). -/
def gzipCloseBytes (compress : Bytes → Bytes) (zw : GzipWriter) : Bytes :=
  compress zw.written

/-- Go `func Gzip(in []byte) []byte`: writes `in` through a fresh gzip writer
into a buffer, closes it, and returns the accumulated buffer bytes. -/
def Gzip (compress : Bytes → Bytes) (inp : Bytes) : Bytes :=
  gzipCloseBytes compress (gzipWrite gzipNewWriter inp)

/-- The standard base64 alphabet (`encoding/base64.StdEncoding`): the ASCII
code of the character for a 6-bit value. -/
def b64Char (v : Nat) : Nat :=
  if v < 26 then 65 + v
  else if v < 52 then 71 + v
  else if v < 62 then v - 4
  else if v = 62 then 43
  else 47

/-- Inverse of the standard base64 alphabet: the 6-bit value of an ASCII
code, or `none` for a character outside the alphabet. -/
def b64Val (c : Nat) : Option Nat :=
  if 65 ≤ c ∧ c ≤ 90 then some (c - 65)
  else if 97 ≤ c ∧ c ≤ 122 then some (c - 71)
  else if 48 ≤ c ∧ c ≤ 57 then some (c + 4)
  else if c = 43 then some 62
  else if c = 47 then some 63
  else none

/-- Go `base64.StdEncoding.Encode`: standard base64 with `=` (ASCII 61)
padding, three input bytes per four output characters. -/
def b64Encode : Bytes → Bytes
  | b0 :: b1 :: b2 :: rest =>
    b64Char (b0 / 4) :: b64Char (b0 % 4 * 16 + b1 / 16) ::
      b64Char (b1 % 16 * 4 + b2 / 64) :: b64Char (b2 % 64) :: b64Encode rest
  | [b0, b1] =>
    [b64Char (b0 / 4), b64Char (b0 % 4 * 16 + b1 / 16),
     b64Char (b1 % 16 * 4), 61]
  | [b0] =>
    [b64Char (b0 / 4), b64Char (b0 % 4 * 16), 61, 61]
  | [] => []

/-- Go `base64.StdEncoding.Decode` on well-formed input: four characters per
three output bytes, a final `=`-padded group yielding one or two bytes;
`none` on malformed input. -/
def b64Decode : Bytes → Option Bytes
  | [] => some []
  | c0 :: c1 :: c2 :: c3 :: rest =>
    match b64Val c0, b64Val c1 with
    | some v0, some v1 =>
      if c2 = 61 then
        if c3 = 61 ∧ rest = [] then some [v0 * 4 + v1 / 16] else none
      else
        match b64Val c2 with
        | some v2 =>
          if c3 = 61 then
            if rest = [] then some [v0 * 4 + v1 / 16, v1 % 16 * 16 + v2 / 4]
            else none
          else
            match b64Val c3 with
            | some v3 =>
              match b64Decode rest with
              | some bs =>
                some ((v0 * 4 + v1 / 16) :: (v1 % 16 * 16 + v2 / 4) ::
                  (v2 % 4 * 64 + v3) :: bs)
              | none => none
            | none => none
        | none => none
    | _, _ => none
  | _ => none

/-- Go `func Base64(in []byte) []byte`: allocates the encoded length and fills
it with `base64.StdEncoding.Encode`. -/
def Base64 (inp : Bytes) : Bytes := b64Encode inp

/-! ## Supporting lemmas -/

/-- Decoding the base64 alphabet character of a 6-bit value recovers it. -/
theorem b64Val_b64Char : ∀ v < 64, b64Val (b64Char v) = some v := by decide

/-- No 6-bit value encodes to the padding character `=` (ASCII 61). -/
theorem b64Char_ne_pad : ∀ v < 64, b64Char v ≠ 61 := by decide

/-- Standard base64 decoding inverts encoding on any sequence of bytes. -/
theorem b64_decode_encode (b : Bytes) (hb : ∀ x ∈ b, x < 256) :
    b64Decode (b64Encode b) = some b := by
  induction b using b64Encode.induct with
  | case1 b0 b1 b2 rest ih =>
    have h0 : b0 < 256 := hb b0 (by simp)
    have h1 : b1 < 256 := hb b1 (by simp)
    have h2 : b2 < 256 := hb b2 (by simp)
    have hrest : ∀ x ∈ rest, x < 256 := fun x hx => hb x (by simp [hx])
    have hv0 : b0 / 4 < 64 := by omega
    have hv1 : b0 % 4 * 16 + b1 / 16 < 64 := by omega
    have hv2 : b1 % 16 * 4 + b2 / 64 < 64 := by omega
    have hv3 : b2 % 64 < 64 := by omega
    simp only [b64Encode, b64Decode, b64Val_b64Char _ hv0, b64Val_b64Char _ hv1,
      b64Val_b64Char _ hv2, b64Val_b64Char _ hv3,
      if_neg (b64Char_ne_pad _ hv2), if_neg (b64Char_ne_pad _ hv3), ih hrest]
    refine congrArg some ?_
    have e0 : b0 / 4 * 4 + (b0 % 4 * 16 + b1 / 16) / 16 = b0 := by omega
    have e1 : (b0 % 4 * 16 + b1 / 16) % 16 * 16 + (b1 % 16 * 4 + b2 / 64) / 4 = b1 := by
      omega
    have e2 : (b1 % 16 * 4 + b2 / 64) % 4 * 64 + b2 % 64 = b2 := by omega
    rw [e0, e1, e2]
  | case2 b0 b1 =>
    have h0 : b0 < 256 := hb b0 (by simp)
    have h1 : b1 < 256 := hb b1 (by simp)
    have hv0 : b0 / 4 < 64 := by omega
    have hv1 : b0 % 4 * 16 + b1 / 16 < 64 := by omega
    have hv2 : b1 % 16 * 4 < 64 := by omega
    simp only [b64Encode, b64Decode, b64Val_b64Char _ hv0, b64Val_b64Char _ hv1,
      b64Val_b64Char _ hv2, if_neg (b64Char_ne_pad _ hv2), if_pos rfl]
    refine congrArg some ?_
    have e0 : b0 / 4 * 4 + (b0 % 4 * 16 + b1 / 16) / 16 = b0 := by omega
    have e1 : (b0 % 4 * 16 + b1 / 16) % 16 * 16 + b1 % 16 * 4 / 4 = b1 := by omega
    rw [e0, e1]
  | case3 b0 =>
    have h0 : b0 < 256 := hb b0 (by simp)
    have hv0 : b0 / 4 < 64 := by omega
    have hv1 : b0 % 4 * 16 < 64 := by omega
    simp only [b64Encode, b64Decode, b64Val_b64Char _ hv0, b64Val_b64Char _ hv1,
      if_pos rfl]
    refine congrArg some ?_
    have e0 : b0 / 4 * 4 + b0 % 4 * 16 / 16 = b0 := by omega
    rw [e0]
  | case4 => rfl

/-- Splitting the option-application loop at a successfully applied prefix. -/
theorem applyOpts_ok_append {σ : Type} (l1 l2 : List (σ → Except GoErr σ))
    (o o2 : σ) (h : applyOpts l1 o = .ok o2) :
    applyOpts (l1 ++ l2) o = applyOpts l2 o2 := by
  induction l1 generalizing o with
  | nil =>
    simp only [applyOpts, Except.ok.injEq] at h
    subst h; rfl
  | cons opt rest ih =>
    simp only [applyOpts, List.cons_append] at h ⊢
    cases hopt : opt o with
    | error e => rw [hopt] at h; exact absurd h (by simp)
    | ok o3 => rw [hopt] at h; exact ih _ h

/-! ## Claim theorems -/

/-- C1: `Publish` is a direct pass-through to the publish of the external
client: a byte-slice payload is forwarded unchanged, a string payload is
forwarded as its bytes, any other payload is forwarded as the bytes of its
generic `%+v` representation, and the error returned is exactly the error
of the external call on the coerced bytes (the connection state is also
untouched). -/
theorem publish_passthrough
    (pub : Option Nat → String → Bytes → Option GoErr)
    (c : conn) (subject : String) :
    (∀ b, conn.Publish pub c subject (.bytes b) = (c, pub c.nc subject b))
    ∧ (∀ s, conn.Publish pub c subject (.str s)
        = (c, pub c.nc subject (strBytes s)))
    ∧ (∀ r, conn.Publish pub c subject (.other r)
        = (c, pub c.nc subject (strBytes r))) :=
  ⟨fun _ => rfl, fun _ => rfl, fun _ => rfl⟩

/-- C2: options are applied in argument order to a freshly zero-initialized
options structure, so when two options set the same field the last one
wins: both at the `Subscribe`/`Request` level and on the resulting options
structure itself, the two-option list yields exactly what the later option
alone yields. -/
theorem options_last_wins (c : conn) (subject : String) (msg : PubMsg) :
    (∀ a b, conn.Subscribe c subject [Queue a, Queue b]
        = conn.Subscribe c subject [Queue b])
    ∧ (∀ h1 h2, conn.Subscribe c subject [Handler h1, Handler h2]
        = conn.Subscribe c subject [Handler h2])
    ∧ (∀ t1 t2, conn.Request c subject msg [Timeout t1, Timeout t2]
        = conn.Request c subject msg [Timeout t2])
    ∧ (∀ x1 x2, conn.Request c subject msg [Ctx x1, Ctx x2]
        = conn.Request c subject msg [Ctx x2])
    ∧ (∀ a b, applyOpts [Queue a, Queue b] ({} : SubOptions)
        = applyOpts [Queue b] ({} : SubOptions))
    ∧ (∀ h1 h2, applyOpts [Handler h1, Handler h2] ({} : SubOptions)
        = applyOpts [Handler h2] ({} : SubOptions))
    ∧ (∀ t1 t2, applyOpts [Timeout t1, Timeout t2] ({} : ReqOptions)
        = applyOpts [Timeout t2] ({} : ReqOptions))
    ∧ (∀ x1 x2, applyOpts [Ctx x1, Ctx x2] ({} : ReqOptions)
        = applyOpts [Ctx x2] ({} : ReqOptions)) :=
  ⟨fun _ _ => rfl, fun _ _ => rfl, fun _ _ => rfl, fun _ _ => rfl,
   fun _ _ => rfl, fun _ _ => rfl, fun _ _ => rfl, fun _ _ => rfl⟩

/-- C3: when an option in the list passed to `Subscribe` or `Request`
returns an error, the call returns that error with a nil result, the
options after the failing one are never applied (the result does not
depend on them), and the connection state is unchanged. -/
theorem option_error_aborts (c : conn) (subject : String) (msg : PubMsg)
    (e : GoErr) :
    (∀ (pre post : List SubOption) (o : SubOptions) (opt : SubOption),
      applyOpts pre {} = .ok o → opt o = .error e →
      conn.Subscribe c subject (pre ++ opt :: post) = (c, (none, some e)))
    ∧ (∀ (pre post : List ReqOption) (o : ReqOptions) (opt : ReqOption),
      applyOpts pre {} = .ok o → opt o = .error e →
      conn.Request c subject msg (pre ++ opt :: post) = (c, (none, some e))) := by
  constructor
  · intro pre post o opt hpre hopt
    unfold conn.Subscribe
    rw [applyOpts_ok_append _ _ _ _ hpre]
    simp [applyOpts, hopt]
  · intro pre post o opt hpre hopt
    unfold conn.Request
    rw [applyOpts_ok_append _ _ _ _ hpre]
    simp [applyOpts, hopt]

/-- Witness for C3: a failing option between two successful ones aborts
`Subscribe` and `Request` with that error and a nil result. -/
theorem option_error_aborts_witness :
    conn.Subscribe ⟨some 1⟩ ("foo") [Queue ("a"), fun _ => .error ("bad"), Queue ("z")]
      = (⟨some 1⟩, (none, some ("bad")))
    ∧ conn.Request ⟨some 1⟩ ("svc") (.str ("2+2"))
        [Timeout 5, fun _ => .error ("bad"), Ctx (some 3)]
      = (⟨some 1⟩, (none, some ("bad"))) :=
  ⟨(option_error_aborts ⟨some 1⟩ ("foo") (.str ("2+2")) ("bad")).1 [Queue ("a")]
      [Queue ("z")] ⟨"a", none⟩ (fun _ => .error ("bad")) rfl rfl,
   (option_error_aborts ⟨some 1⟩ ("svc") (.str ("2+2")) ("bad")).2 [Timeout 5]
      [Ctx (some 3)] ⟨5, none⟩ (fun _ => .error ("bad")) rfl rfl⟩

/-- C4: the encoding helpers round-trip. `Gzip` feeds all input through the
writer and closes it, so the external decompressor (assumed, per the gzip
library contract, to invert the compressor) recovers the input; `Base64`
output decodes back to the input for every byte sequence (base64 is
implemented concretely, so this part rests on no assumption); and for a
marshalable value, unmarshaling (assumed, per the JSON library contract, to
invert marshaling) recovers the value from the bytes `JSON` returns. -/
theorem encoding_roundtrip {V : Type}
    (compress decompress : Bytes → Bytes)
    (marshal : V → Except GoErr Bytes) (unmarshal : Bytes → Option V)
    (hgzip : ∀ x, decompress (compress x) = x)
    (hjson : ∀ v b, marshal v = .ok b → unmarshal b = some v) :
    (∀ b, decompress (Gzip compress b) = b)
    ∧ (∀ b : Bytes, (∀ x ∈ b, x < 256) → b64Decode (Base64 b) = some b)
    ∧ (∀ v b, marshal v = .ok b → unmarshal (JSON marshal v) = some v) := by
  refine ⟨?_, ?_, ?_⟩
  · intro b
    show decompress (compress (List.nil ++ b)) = b
    rw [List.nil_append]
    exact hgzip b
  · intro b hb
    exact b64_decode_encode b hb
  · intro v b h
    have hj : JSON marshal v = b := by unfold JSON; rw [h]
    rw [hj]
    exact hjson v b h

/-- A concrete invertible stand-in for the external gzip compressor. -/
def gzCompressWit : Bytes → Bytes := fun b => 0 :: b

/-- The matching stand-in for the external gzip decompressor. -/
def gzDecompressWit : Bytes → Bytes := fun b => b.drop 1

/-- A concrete stand-in for the external JSON marshal. -/
def jsonMarshalRT : Nat → Except GoErr Bytes := fun n => .ok [n]

/-- The matching stand-in for the external JSON unmarshal. -/
def jsonUnmarshalRT : Bytes → Option Nat :=
  fun b => match b with
  | [n] => some n
  | _ => none

/-- The stand-in unmarshal inverts the stand-in marshal. -/
theorem jsonRT_inverse : ∀ (v : Nat) (b : Bytes),
    jsonMarshalRT v = .ok b → jsonUnmarshalRT b = some v := by
  intro v b h
  simp only [jsonMarshalRT, Except.ok.injEq] at h
  subst h
  rfl

/-- Witness for C4: each round-trip evaluated at a concrete input. -/
theorem encoding_roundtrip_witness :
    gzDecompressWit (Gzip gzCompressWit [10, 20, 30]) = [10, 20, 30]
    ∧ b64Decode (Base64 [72, 200, 0, 255]) = some [72, 200, 0, 255]
    ∧ jsonUnmarshalRT (JSON jsonMarshalRT 42) = some 42 :=
  ⟨(encoding_roundtrip gzCompressWit gzDecompressWit jsonMarshalRT jsonUnmarshalRT
      (fun _ => rfl) jsonRT_inverse).1 [10, 20, 30],
   (encoding_roundtrip gzCompressWit gzDecompressWit jsonMarshalRT jsonUnmarshalRT
      (fun _ => rfl) jsonRT_inverse).2.1 [72, 200, 0, 255] (by decide),
   (encoding_roundtrip gzCompressWit gzDecompressWit jsonMarshalRT jsonUnmarshalRT
      (fun _ => rfl) jsonRT_inverse).2.2 42 [42] rfl⟩

/-- C5: each option builder sets exactly its field, leaves the other field
of the structure unchanged, and returns a nil error. -/
theorem option_builders_set_fields (o : SubOptions) (ro : ReqOptions) :
    (∀ name, Queue name o = .ok ⟨name, o.Handler⟩)
    ∧ (∀ mcb, Handler mcb o = .ok ⟨o.Queue, mcb⟩)
    ∧ (∀ t, Timeout t ro = .ok ⟨t, ro.Context⟩)
    ∧ (∀ x, Ctx x ro = .ok ⟨ro.Timeout, x⟩) :=
  ⟨fun _ => rfl, fun _ => rfl, fun _ => rfl, fun _ => rfl⟩

/-- C6: on a connection failure `Connect` yields no connection, only the
error of the external connect, and the connect step of `main` exits fatally
logging that error, proceeding with no further operation. -/
theorem connect_failure_fatal (e : GoErr) :
    Connect (.error e) = .error e
    ∧ mainConnectStep (.error e)
        = .fatalExit ("Could not connect: " ++ e ++ "\n") :=
  ⟨rfl, rfl⟩

/-- C7: `Subscribe` and `Request` are stubs returning `(nil, nil)` whenever
every option succeeds, and `Handle` returns a nil error while being
entirely independent of the handler it is given. -/
theorem stub_methods (c : conn) (subject : String) (msg : PubMsg) :
    (∀ (opts : List SubOption) o, applyOpts opts ({} : SubOptions) = .ok o →
      conn.Subscribe c subject opts = (c, (none, none)))
    ∧ (∀ (opts : List ReqOption) o, applyOpts opts ({} : ReqOptions) = .ok o →
      conn.Request c subject msg opts = (c, (none, none)))
    ∧ (∀ h, conn.Handle c subject h = (c, none))
    ∧ (∀ h1 h2, conn.Handle c subject h1 = conn.Handle c subject h2) := by
  refine ⟨?_, ?_, fun _ => rfl, fun _ _ => rfl⟩
  · intro opts o h; unfold conn.Subscribe; rw [h]
  · intro opts o h; unfold conn.Request; rw [h]

/-- Witness for C7: the stub returns evaluated on the calls `main` makes. -/
theorem stub_methods_witness :
    conn.Subscribe ⟨some 1⟩ ("foo") [Queue ("bar")] = (⟨some 1⟩, (none, none))
    ∧ conn.Request ⟨some 1⟩ ("service") (.str ("2+2")) [Timeout 2000000000]
        = (⟨some 1⟩, (none, none))
    ∧ conn.Handle ⟨some 1⟩ ("foo") 7 = (⟨some 1⟩, none) :=
  ⟨(stub_methods ⟨some 1⟩ ("foo") (.str ("2+2"))).1 [Queue ("bar")]
      ⟨"bar", none⟩ rfl,
   (stub_methods ⟨some 1⟩ ("service") (.str ("2+2"))).2.1 [Timeout 2000000000]
      ⟨2000000000, none⟩ rfl,
   (stub_methods ⟨some 1⟩ ("foo") (.str ("x"))).2.2.1 7⟩

/-- C8: `Close` is idempotent and nil-safe: on a live connection the first
call invokes the external close and clears the stored reference, any call
on an already-closed (nil-reference) connection changes nothing and never
invokes the external close again. -/
theorem close_idempotent_nil_safe :
    (∀ ncId : Nat, conn.Close ⟨some ncId⟩ = (⟨none⟩, true))
    ∧ (∀ c : conn, conn.Close (conn.Close c).1 = ((conn.Close c).1, false))
    ∧ conn.Close ⟨none⟩ = (⟨none⟩, false) := by
  refine ⟨fun _ => rfl, ?_, rfl⟩
  intro c
  cases c with
  | mk nc => cases nc <;> rfl

/-- C9: the `JSON` helper silently discards marshaling errors: it returns
the marshaled bytes on success and the nil byte slice on failure, never an
error. -/
theorem json_discards_marshal_error {V : Type}
    (marshal : V → Except GoErr Bytes) (v : V) :
    (∀ b, marshal v = .ok b → JSON marshal v = b)
    ∧ (∀ e, marshal v = .error e → JSON marshal v = []) := by
  constructor <;> intro x h <;> unfold JSON <;> rw [h]

/-- A stand-in marshal that fails on one input, for the C9 witness. -/
def jsonMarshalWit : Nat → Except GoErr Bytes :=
  fun n => if n = 0 then .error ("unsupported value") else .ok [n]

/-- Witness for C9: the helper forwards marshaled bytes and turns a
marshaling failure into the nil byte slice. -/
theorem json_discards_marshal_error_witness :
    JSON jsonMarshalWit 5 = [5] ∧ JSON jsonMarshalWit 0 = [] :=
  ⟨(json_discards_marshal_error jsonMarshalWit 5).1 [5] rfl,
   (json_discards_marshal_error jsonMarshalWit 0).2 ("unsupported value") rfl⟩

/-- C10: only `Close` mutates the connection: `Publish`, `Subscribe`,
`Request` and `Handle` all leave the stored client reference unchanged, and
the results of `Subscribe` and `Request` are independent of the connection
state, each call building its options afresh. -/
theorem only_close_mutates
    (pub : Option Nat → String → Bytes → Option GoErr) (c c2 : conn)
    (subject : String) (msg : PubMsg)
    (sopts : List SubOption) (ropts : List ReqOption) (h : Nat) :
    (conn.Publish pub c subject msg).1 = c
    ∧ (conn.Subscribe c subject sopts).1 = c
    ∧ (conn.Request c subject msg ropts).1 = c
    ∧ (conn.Handle c subject h).1 = c
    ∧ (conn.Subscribe c subject sopts).2 = (conn.Subscribe c2 subject sopts).2
    ∧ (conn.Request c subject msg ropts).2 = (conn.Request c2 subject msg ropts).2 := by
  refine ⟨rfl, ?_, ?_, rfl, ?_, ?_⟩
  · cases hs : applyOpts sopts ({} : SubOptions) <;> simp [conn.Subscribe, hs]
  · cases hr : applyOpts ropts ({} : ReqOptions) <;> simp [conn.Request, hr]
  · cases hs : applyOpts sopts ({} : SubOptions) <;> simp [conn.Subscribe, hs]
  · cases hr : applyOpts ropts ({} : ReqOptions) <;> simp [conn.Request, hr]
